import Mathlib

/-!
Verification development for the FinnPos configuration subsystem
(`src/src/tagger/TaggerOptions.cc`).

The C++ code is shallowly embedded: `std::string` data becomes `List Char`,
C `float`/`double` values become exact rationals (`ℚ`), `unsigned int`
becomes `Nat`, `int` becomes `Int`, and C++ exceptions become `Except` /
explicit error components.  Where a lossy `unsigned int`/`int` → `float`
conversion happens in the code (the binary `store` routine pushes integer
fields into a `std::vector<float>`), the IEEE-754 binary32
round-to-nearest-even conversion is modelled explicitly (`round24`).
-/

namespace FinnPos

/-- Modelled from the spec: the header `TaggerOptions.hh` is not under
`src/`, so the enum `Estimator` and its declaration order (`AVG_PERC`,
`ML`) are taken from the spec §3 table. -/
inductive Estimator
  | AVG_PERC
  | ML
deriving DecidableEq, Repr

/-- Modelled from the spec: declaration order (`MAP`, `MARGINAL`) from the
spec §3 table (header not under `src/`). -/
inductive Inference
  | MAP
  | MARGINAL
deriving DecidableEq, Repr

/-- Modelled from the spec: declaration order (`NONE`, `L1`, `L2`) from the
spec §3 table (header not under `src/`). -/
inductive Regularization
  | NONE
  | L1
  | L2
deriving DecidableEq, Repr

/-- The options record of `TaggerOptions.cc`.  Field names and types follow
the explicit constructor at lines 77–106.  `beam` is modelled as a signed
`Int`: the header declaring the member is not under `src/`, and the spec §3
table declares `beam` a signed int (consistent with `beam = -1` defaults and
`static_cast<int>` on load). -/
structure TaggerOptions where
  estimator : Estimator
  inference : Inference
  suffix_length : Nat
  degree : Nat
  max_train_passes : Nat
  max_lemmatizer_passes : Nat
  max_useless_passes : Nat
  guess_mass : ℚ
  beam : Int
  beam_mass : ℚ
  regularization : Regularization
  delta : ℚ
  sigma : ℚ
  use_label_dictionary : Bool
deriving DecidableEq, Repr

/-- The compiled-in defaults of the stream constructor
(`TaggerOptions.cc` lines 108–122). -/
def defaultTaggerOptions : TaggerOptions where
  estimator := Estimator.AVG_PERC
  inference := Inference.MAP
  suffix_length := 10
  degree := 2
  max_train_passes := 50
  max_lemmatizer_passes := 50
  max_useless_passes := 3
  guess_mass := 99/100
  beam := -1
  beam_mass := -1
  regularization := Regularization.NONE
  delta := -1
  sigma := -1
  use_label_dictionary := true

/-- `despace` (lines 61–72): drop every space, tab and carriage return. -/
def despace (line : List Char) : List Char :=
  line.filter fun c => !(c == ' ' || c == '\t' || c == '\r')

/-- `std::string::find(pat) != npos`: `pat` occurs contiguously in `text`. -/
def containsSub : List Char → List Char → Bool
  | [], p => p.isPrefixOf []
  | c :: t, p => p.isPrefixOf (c :: t) || containsSub t p

/-- `std::string::find`: index of the first occurrence of `p` in `t`. -/
def findSub : List Char → List Char → Option Nat
  | [], p => if p.isPrefixOf [] then some 0 else none
  | c :: t, p => if p.isPrefixOf (c :: t) then some 0 else (findSub t p).map (· + 1)

/-- `strip` (lines 268–275): everything after the first occurrence of
`pre`.  The C++ asserts the occurrence exists; on `none` we return `str`
unchanged (that branch is unreachable from `processLine`). -/
def strip (str pre : List Char) : List Char :=
  match findSub str pre with
  | some i => str.drop (i + pre.length)
  | none => str

/-- Whitespace skipped by C `atoi`/`atof` (`isspace`): space, `\t`, `\n`,
vertical tab, form feed, `\r`. -/
def cSpace (c : Char) : Bool :=
  c == ' ' || c == '\t' || c == '\n' || c == Char.ofNat 11 || c == Char.ofNat 12 || c == '\r'

/-- Scan a maximal digit run: returns (value, number of digits, rest). -/
def scanDigits : List Char → Nat × Nat × List Char
  | [] => (0, 0, [])
  | c :: cs =>
    if c.isDigit then
      let (v, n, r) := scanDigits cs
      ((c.toNat - 48) * 10 ^ n + v, n + 1, r)
    else (0, 0, c :: cs)

/-- C `atoi`: optional whitespace, optional sign, maximal digit run; no
digits means 0.  (Out-of-range input is UB in C and not modelled.) -/
def atoiChars (s : List Char) : Int :=
  let s1 := s.dropWhile cSpace
  match s1 with
  | '-' :: r => -((scanDigits r).1 : Int)
  | '+' :: r => ((scanDigits r).1 : Int)
  | _ => ((scanDigits s1).1 : Int)

/-- Exponent part of a C float literal: `e`/`E`, optional sign, digits.
If no digit follows, `strtod` does not consume the exponent (treated as
exponent 0). -/
def expPart : List Char → Int
  | [] => 0
  | c :: r =>
    if c == 'e' || c == 'E' then
      match r with
      | '-' :: rr => if (rr.head?.map Char.isDigit).getD false then -((scanDigits rr).1 : Int) else 0
      | '+' :: rr => if (rr.head?.map Char.isDigit).getD false then ((scanDigits rr).1 : Int) else 0
      | _ => if (r.head?.map Char.isDigit).getD false then ((scanDigits r).1 : Int) else 0
    else 0

/-- Magnitude part of a C float literal: digits, optional `.` and digits,
optional exponent.  No digits at all means no conversion (0). -/
def atofMag (s : List Char) : ℚ :=
  let (ip, n1, r1) := scanDigits s
  let (fp, n2, r2) :=
    match r1 with
    | '.' :: r => scanDigits r
    | _ => (0, 0, r1)
  if n1 = 0 && n2 = 0 then 0
  else
    let mant : ℚ := (ip : ℚ) + (fp : ℚ) / (10 : ℚ) ^ n2
    let e := expPart r2
    if 0 ≤ e then mant * (10 : ℚ) ^ e.toNat else mant / (10 : ℚ) ^ (-e).toNat

/-- C `atof`: optional whitespace, optional sign, magnitude.  Modelled over
exact rationals (the hex/inf/nan forms of `strtod` are not modelled). -/
def atofChars (s : List Char) : ℚ :=
  let s1 := s.dropWhile cSpace
  match s1 with
  | '-' :: r => -atofMag r
  | '+' :: r => atofMag r
  | _ => atofMag s1

/-- The two error signals the text parser can raise
(`exceptions.hh` collaborators; spec §6/§7). -/
inductive ParseErr
  | SyntaxError
  | NumericalRangeError
deriving DecidableEq, Repr

/-- `get_estimator` (lines 277–285): `str.find(tok) == 0` is a prefix test. -/
def get_estimator (s : List Char) : Except ParseErr Estimator :=
  if ("AVG_PERC".data).isPrefixOf s then .ok Estimator.AVG_PERC
  else if ("ML".data).isPrefixOf s then .ok Estimator.ML
  else .error ParseErr.SyntaxError

/-- `get_inference` (lines 287–295). -/
def get_inference (s : List Char) : Except ParseErr Inference :=
  if ("MAP".data).isPrefixOf s then .ok Inference.MAP
  else if ("MARGINAL".data).isPrefixOf s then .ok Inference.MARGINAL
  else .error ParseErr.SyntaxError

/-- `get_regularization` (lines 297–307). -/
def get_regularization (s : List Char) : Except ParseErr Regularization :=
  if ("NONE".data).isPrefixOf s then .ok Regularization.NONE
  else if ("L1".data).isPrefixOf s then .ok Regularization.L1
  else if ("L2".data).isPrefixOf s then .ok Regularization.L2
  else .error ParseErr.SyntaxError

/-- `get_uint` (lines 309–317): `atoi`, negative raises
`NumericalRangeError`. -/
def get_uint (s : List Char) : Except ParseErr Nat :=
  let i := atoiChars s
  if i < 0 then .error ParseErr.NumericalRangeError else .ok i.toNat

/-- `get_int` (lines 319–324): `atoi`, any sign accepted.  (The C++
declares the return type `unsigned int` and the value round-trips through
it into the signed member; the net effect on in-range values is the
identity, which is what is modelled.) -/
def get_int (s : List Char) : Int :=
  atoiChars s

/-- `get_float` (lines 326–334): `atof`, negative raises
`NumericalRangeError`. -/
def get_float (s : List Char) : Except ParseErr ℚ :=
  let f := atofChars s
  if f < 0 then .error ParseErr.NumericalRangeError else .ok f

/-- The fourteen known fields, in the order the text parser tries its
`key=` markers (lines 140–167) and the order `store` emits them
(lines 178–206). -/
inductive Field
  | estimator
  | inference
  | suffix_length
  | degree
  | max_train_passes
  | max_lemmatizer_passes
  | max_useless_passes
  | guess_mass
  | beam
  | beam_mass
  | regularization
  | delta
  | sigma
  | use_label_dictionary
deriving DecidableEq, Repr, Fintype

/-- The binary field-name strings pushed by `store` (lines 178–191). -/
def fieldName : Field → String
  | Field.estimator => "estimator"
  | Field.inference => "inference"
  | Field.suffix_length => "suffix_length"
  | Field.degree => "degree"
  | Field.max_train_passes => "max_train_passes"
  | Field.max_lemmatizer_passes => "max_lemmatizer_passes"
  | Field.max_useless_passes => "max_useless_passes"
  | Field.guess_mass => "guess_mass"
  | Field.beam => "beam"
  | Field.beam_mass => "beam_mass"
  | Field.regularization => "regularization"
  | Field.delta => "delta"
  | Field.sigma => "sigma"
  | Field.use_label_dictionary => "use_label_dictionary"

/-- The `key=` markers of the text parser (`estimator_id` … at
lines 46–59): always the field name followed by `=`. -/
def fieldKey (f : Field) : List Char :=
  (fieldName f).data ++ ['=']

/-- One `key=value` branch body of the stream constructor
(lines 140–167), applied to the already-stripped value text. -/
def applyTextField (f : Field) (o : TaggerOptions) (v : List Char) :
    Except ParseErr TaggerOptions :=
  match f with
  | Field.estimator => (get_estimator v).map fun x => { o with estimator := x }
  | Field.inference => (get_inference v).map fun x => { o with inference := x }
  | Field.suffix_length => (get_uint v).map fun n => { o with suffix_length := n }
  | Field.degree => (get_uint v).map fun n => { o with degree := n }
  | Field.max_train_passes => (get_uint v).map fun n => { o with max_train_passes := n }
  | Field.max_lemmatizer_passes => (get_uint v).map fun n => { o with max_lemmatizer_passes := n }
  | Field.max_useless_passes => (get_uint v).map fun n => { o with max_useless_passes := n }
  | Field.guess_mass => (get_float v).map fun q => { o with guess_mass := q }
  | Field.beam => .ok { o with beam := get_int v }
  | Field.beam_mass => (get_float v).map fun q => { o with beam_mass := q }
  | Field.regularization => (get_regularization v).map fun x => { o with regularization := x }
  | Field.delta => (get_float v).map fun q => { o with delta := q }
  | Field.sigma => (get_float v).map fun q => { o with sigma := q }
  | Field.use_label_dictionary => (get_uint v).map fun n => { o with use_label_dictionary := n != 0 }

/-- The `key=value` dispatch of the stream constructor (lines 140–169): the
first marker found as a substring wins, in source order; a line matching no
marker raises `SyntaxError`. -/
def processLine (o : TaggerOptions) (line : List Char) : Except ParseErr TaggerOptions :=
  if containsSub line (fieldKey Field.estimator) then
    applyTextField Field.estimator o (strip line (fieldKey Field.estimator))
  else if containsSub line (fieldKey Field.inference) then
    applyTextField Field.inference o (strip line (fieldKey Field.inference))
  else if containsSub line (fieldKey Field.suffix_length) then
    applyTextField Field.suffix_length o (strip line (fieldKey Field.suffix_length))
  else if containsSub line (fieldKey Field.degree) then
    applyTextField Field.degree o (strip line (fieldKey Field.degree))
  else if containsSub line (fieldKey Field.max_train_passes) then
    applyTextField Field.max_train_passes o (strip line (fieldKey Field.max_train_passes))
  else if containsSub line (fieldKey Field.max_lemmatizer_passes) then
    applyTextField Field.max_lemmatizer_passes o (strip line (fieldKey Field.max_lemmatizer_passes))
  else if containsSub line (fieldKey Field.max_useless_passes) then
    applyTextField Field.max_useless_passes o (strip line (fieldKey Field.max_useless_passes))
  else if containsSub line (fieldKey Field.guess_mass) then
    applyTextField Field.guess_mass o (strip line (fieldKey Field.guess_mass))
  else if containsSub line (fieldKey Field.beam) then
    applyTextField Field.beam o (strip line (fieldKey Field.beam))
  else if containsSub line (fieldKey Field.beam_mass) then
    applyTextField Field.beam_mass o (strip line (fieldKey Field.beam_mass))
  else if containsSub line (fieldKey Field.regularization) then
    applyTextField Field.regularization o (strip line (fieldKey Field.regularization))
  else if containsSub line (fieldKey Field.delta) then
    applyTextField Field.delta o (strip line (fieldKey Field.delta))
  else if containsSub line (fieldKey Field.sigma) then
    applyTextField Field.sigma o (strip line (fieldKey Field.sigma))
  else if containsSub line (fieldKey Field.use_label_dictionary) then
    applyTextField Field.use_label_dictionary o (strip line (fieldKey Field.use_label_dictionary))
  else .error ParseErr.SyntaxError

/-- The stream-constructor loop (lines 124–170).  The input is the list of
lines of the stream; `counter` is the caller-supplied by-reference counter,
incremented once per `getline` call — including the final failing `getline`
at end of stream (with `eofbit` alone, `while (in)` is still true, so one
more iteration runs, increments the counter, reads an empty line and then
leaves the loop).  An exception carries the counter value at the throw. -/
def parseLines (o : TaggerOptions) (counter : Nat) :
    List (List Char) → Except (ParseErr × Nat) (TaggerOptions × Nat)
  | [] => .ok (o, counter + 1)
  | l :: ls =>
    let line := despace l
    if line.isEmpty then parseLines o (counter + 1) ls
    else if line.head? = some '#' then parseLines o (counter + 1) ls
    else
      match processLine o line with
      | .ok o2 => parseLines o2 (counter + 1) ls
      | .error e => .error (e, counter + 1)

/-- The effect of one loop iteration on the record alone (blank and comment
lines leave it unchanged); used to phrase "k valid lines" hypotheses. -/
def lineStep (o : TaggerOptions) (l : List Char) : Except ParseErr TaggerOptions :=
  let line := despace l
  if line.isEmpty then .ok o
  else if line.head? = some '#' then .ok o
  else processLine o line

/-- Thread `lineStep` through a list of lines, `none` on any error. -/
def linesOk (o : TaggerOptions) : List (List Char) → Option TaggerOptions
  | [] => some o
  | l :: ls =>
    match lineStep o l with
    | .ok o2 => linesOk o2 ls
    | .error _ => none

/-- `float_eq` (lines 43–44): absolute difference below 0.001. -/
def float_eq (f1 f2 : ℚ) : Bool :=
  decide (|f1 - f2| < 1/1000)

/-- `TaggerOptions::operator==` (lines 336–355).  Note the C++ comparison
chain does not include `max_useless_passes`.  (The `this == &another`
pointer short-circuit is subsumed: on identical field values every
comparison below is true.) -/
def optionsEq (a b : TaggerOptions) : Bool :=
  decide (a.estimator = b.estimator) &&
  decide (a.inference = b.inference) &&
  decide (a.suffix_length = b.suffix_length) &&
  decide (a.degree = b.degree) &&
  decide (a.max_train_passes = b.max_train_passes) &&
  decide (a.max_lemmatizer_passes = b.max_lemmatizer_passes) &&
  float_eq a.guess_mass b.guess_mass &&
  decide (a.beam = b.beam) &&
  float_eq a.beam_mass b.beam_mass &&
  decide (a.regularization = b.regularization) &&
  float_eq a.delta b.delta &&
  float_eq a.sigma b.sigma &&
  decide (a.use_label_dictionary = b.use_label_dictionary)

/-- The spec's §4.3 equality, written from the spec's words: every field
equal, integer/enum/boolean fields exactly, the four float fields within
absolute difference 0.001.  Stated for comparison with the code's
`optionsEq`. -/
def specFieldEq (a b : TaggerOptions) : Prop :=
  a.estimator = b.estimator ∧
  a.inference = b.inference ∧
  a.suffix_length = b.suffix_length ∧
  a.degree = b.degree ∧
  a.max_train_passes = b.max_train_passes ∧
  a.max_lemmatizer_passes = b.max_lemmatizer_passes ∧
  a.max_useless_passes = b.max_useless_passes ∧
  |a.guess_mass - b.guess_mass| < 1/1000 ∧
  a.beam = b.beam ∧
  |a.beam_mass - b.beam_mass| < 1/1000 ∧
  a.regularization = b.regularization ∧
  |a.delta - b.delta| < 1/1000 ∧
  |a.sigma - b.sigma| < 1/1000 ∧
  a.use_label_dictionary = b.use_label_dictionary

/-- `specFieldEq` with the `max_useless_passes` conjunct removed: the
equality the C++ comparison actually decides. -/
def specFieldEqNoUseless (a b : TaggerOptions) : Prop :=
  a.estimator = b.estimator ∧
  a.inference = b.inference ∧
  a.suffix_length = b.suffix_length ∧
  a.degree = b.degree ∧
  a.max_train_passes = b.max_train_passes ∧
  a.max_lemmatizer_passes = b.max_lemmatizer_passes ∧
  |a.guess_mass - b.guess_mass| < 1/1000 ∧
  a.beam = b.beam ∧
  |a.beam_mass - b.beam_mass| < 1/1000 ∧
  a.regularization = b.regularization ∧
  |a.delta - b.delta| < 1/1000 ∧
  |a.sigma - b.sigma| < 1/1000 ∧
  a.use_label_dictionary = b.use_label_dictionary

/-- Floor of the base-2 logarithm, by structural recursion on a fuel bound
(exact for `n < 2 ^ fuel`; the fields here are 32-bit, and fuel 64 is used). -/
def log2floor : Nat → Nat → Nat
  | 0, _ => 0
  | fuel + 1, n => if 2 ≤ n then log2floor fuel (n / 2) + 1 else 0

/-- Round a natural number to the nearest value with a 24-bit significand
(round-to-nearest, ties to even): the value an IEEE-754 binary32 `float`
takes when a C++ `unsigned int`/`int` magnitude is converted to it.  Values
up to `2^24` are exact. -/
def round24 (n : Nat) : Nat :=
  if n ≤ 2 ^ 24 then n
  else
    let e := log2floor 64 n - 23
    let q := n / 2 ^ e
    let r := n % 2 ^ e
    let half := 2 ^ (e - 1)
    let q2 :=
      if r < half then q
      else if half < r then q + 1
      else if q % 2 = 0 then q else q + 1
    q2 * 2 ^ e

/-- The exact value of `float(n)` for an unsigned integer `n`. -/
def f32Nat (n : Nat) : ℚ :=
  (round24 n : ℚ)

/-- The exact value of `float(i)` for a signed integer `i`. -/
def f32Int (i : Int) : ℚ :=
  if i < 0 then -(round24 i.natAbs : ℚ) else (round24 i.toNat : ℚ)

/-- Ordinal of an `Estimator` value (enum → `float` in `store`). -/
def estQ : Estimator → ℚ
  | Estimator.AVG_PERC => 0
  | Estimator.ML => 1

/-- Ordinal of an `Inference` value. -/
def infQ : Inference → ℚ
  | Inference.MAP => 0
  | Inference.MARGINAL => 1

/-- Ordinal of a `Regularization` value. -/
def regQ : Regularization → ℚ
  | Regularization.NONE => 0
  | Regularization.L1 => 1
  | Regularization.L2 => 2

/-- The name sequence pushed by `store` (lines 178–191). -/
def storeNames : List String :=
  [ "estimator", "inference", "suffix_length", "degree", "max_train_passes",
    "max_lemmatizer_passes", "max_useless_passes", "guess_mass", "beam",
    "beam_mass", "regularization", "delta", "sigma", "use_label_dictionary" ]

/-- The value sequence pushed by `store` (lines 193–206): every field
coerced into the `std::vector<float>`.  Enum and boolean ordinals and the
float fields convert exactly; the integer fields go through binary32
rounding. -/
def storeValues (o : TaggerOptions) : List ℚ :=
  [ estQ o.estimator, infQ o.inference, f32Nat o.suffix_length, f32Nat o.degree,
    f32Nat o.max_train_passes, f32Nat o.max_lemmatizer_passes,
    f32Nat o.max_useless_passes, o.guess_mass, f32Int o.beam, o.beam_mass,
    regQ o.regularization, o.delta, o.sigma, if o.use_label_dictionary then 1 else 0 ]

/-- `TaggerOptions::store` (lines 173–210): the two parallel sequences
handed to `write_vector`. -/
def store (o : TaggerOptions) : List String × List ℚ :=
  (storeNames, storeValues o)

/-- `static_cast<unsigned int>` from a float value: truncation toward zero
(negative input is UB in C++ and modelled as 0). -/
def qToUInt (v : ℚ) : Nat :=
  ⌊v⌋.toNat

/-- `static_cast<int>` from a float value: truncation toward zero. -/
def qToInt (v : ℚ) : Int :=
  if v < 0 then -⌊-v⌋ else ⌊v⌋

/-- `static_cast<Estimator>` from a float value (values other than the
enumerators' ordinals are UB in C++; a total choice is made here). -/
def qToEstimator (v : ℚ) : Estimator :=
  if qToInt v = 1 then Estimator.ML else Estimator.AVG_PERC

/-- `static_cast<Inference>` from a float value. -/
def qToInference (v : ℚ) : Inference :=
  if qToInt v = 1 then Inference.MARGINAL else Inference.MAP

/-- `static_cast<Regularization>` from a float value. -/
def qToRegularization (v : ℚ) : Regularization :=
  if qToInt v = 1 then Regularization.L1
  else if qToInt v = 2 then Regularization.L2
  else Regularization.NONE

/-- The two binary-load error signals (spec §6/§7). -/
inductive LoadErr
  | ReadFailed
  | BadBinary
deriving DecidableEq, Repr

/-- The diagnostic `load` writes to `msg_out` for an unknown field name
(lines 260–263). -/
def unknownMsg (n : String) : String :=
  "Found unknown parameter name " ++ n ++ ". Please, update your FinnPos version.\n"

/-- Whether a binary field name is one of the fourteen known names. -/
def isKnown (n : String) : Bool :=
  decide (n ∈ storeNames)

/-- One iteration of the `load` assignment loop (lines 226–265): a known
name assigns the coerced value to its field; an unknown name emits the
diagnostic and changes nothing. -/
def assign (o : TaggerOptions) (p : String × ℚ) : TaggerOptions × List String :=
  if p.1 = "estimator" then ({ o with estimator := qToEstimator p.2 }, [])
  else if p.1 = "inference" then ({ o with inference := qToInference p.2 }, [])
  else if p.1 = "suffix_length" then ({ o with suffix_length := qToUInt p.2 }, [])
  else if p.1 = "degree" then ({ o with degree := qToUInt p.2 }, [])
  else if p.1 = "max_train_passes" then ({ o with max_train_passes := qToUInt p.2 }, [])
  else if p.1 = "max_lemmatizer_passes" then ({ o with max_lemmatizer_passes := qToUInt p.2 }, [])
  else if p.1 = "max_useless_passes" then ({ o with max_useless_passes := qToUInt p.2 }, [])
  else if p.1 = "guess_mass" then ({ o with guess_mass := p.2 }, [])
  else if p.1 = "beam" then ({ o with beam := qToInt p.2 }, [])
  else if p.1 = "beam_mass" then ({ o with beam_mass := p.2 }, [])
  else if p.1 = "regularization" then ({ o with regularization := qToRegularization p.2 }, [])
  else if p.1 = "delta" then ({ o with delta := p.2 }, [])
  else if p.1 = "sigma" then ({ o with sigma := p.2 }, [])
  else if p.1 = "use_label_dictionary" then ({ o with use_label_dictionary := qToUInt p.2 != 0 }, [])
  else (o, [unknownMsg p.1])

/-- The `load` assignment loop over all (name, value) pairs, collecting the
diagnostics in order. -/
def applyPairs (o : TaggerOptions) : List (String × ℚ) → TaggerOptions × List String
  | [] => (o, [])
  | p :: ps =>
    ((applyPairs (assign o p).1 ps).1, (assign o p).2 ++ (applyPairs (assign o p).1 ps).2)

/-- `TaggerOptions::load` (lines 212–266).  The generic `read_vector`
collaborator is external: its outcome enters as the deserialized name and
value sequences plus the stream's fault flag (`in.fail()` after both
reads).  Result: the updated record, the structural error if any, and the
diagnostics written to `msg_out`. -/
def load (o : TaggerOptions) (streamFail : Bool) (field_names : List String)
    (fields : List ℚ) : TaggerOptions × Option LoadErr × List String :=
  if streamFail then (o, some LoadErr.ReadFailed, [])
  else if field_names.length ≠ fields.length then (o, some LoadErr.BadBinary, [])
  else
    let (r, msgs) := applyPairs o (field_names.zip fields)
    (r, none, msgs)

/-- Read a field of the record back as a rational (raw value; enums and the
boolean by ordinal): a per-field observer used to state which occurrence of
a binary pair determines the final field value. -/
def fieldQ (o : TaggerOptions) : Field → ℚ
  | Field.estimator => estQ o.estimator
  | Field.inference => infQ o.inference
  | Field.suffix_length => (o.suffix_length : ℚ)
  | Field.degree => (o.degree : ℚ)
  | Field.max_train_passes => (o.max_train_passes : ℚ)
  | Field.max_lemmatizer_passes => (o.max_lemmatizer_passes : ℚ)
  | Field.max_useless_passes => (o.max_useless_passes : ℚ)
  | Field.guess_mass => o.guess_mass
  | Field.beam => (o.beam : ℚ)
  | Field.beam_mass => o.beam_mass
  | Field.regularization => regQ o.regularization
  | Field.delta => o.delta
  | Field.sigma => o.sigma
  | Field.use_label_dictionary => if o.use_label_dictionary then 1 else 0

/-- The characters a plain C numeric literal is built from (sign, digits,
decimal point, exponent marker); in particular no `=`, no whitespace. -/
def numLitChars : List Char :=
  "+-.0123456789eE".data

/-- The numeric value the text parser extracts for a non-negativity-checked
field: `atof` for `guess_mass`, `atoi` for the unsigned-integer fields. -/
def textNumVal (f : Field) (v : List Char) : ℚ :=
  if f = Field.guess_mass then atofChars v else (atoiChars v : ℚ)

/-- The record from claim C3's counterexample: the defaults with
`suffix_length := 2^25 + 1`, a value no binary32 float represents (the
nearest float is `2^25`, at distance 1; the next, `2^25 + 4`, is at
distance 3 — so the rounding direction does not depend on the tie rule). -/
def bigSuffixRec : TaggerOptions :=
  { defaultTaggerOptions with suffix_length := 33554433 }

/-! ### Substring machinery -/

lemma getLast?_mem : ∀ {l : List Char} {a : Char}, l.getLast? = some a → a ∈ l := by
  intro l
  induction l with
  | nil => intro a h; simp at h
  | cons c l' ih =>
    intro a h
    cases l' with
    | nil =>
      simp only [List.getLast?_singleton, Option.some.injEq] at h
      simp [h]
    | cons c2 l'' =>
      rw [List.getLast?_cons_cons] at h
      exact List.mem_cons_of_mem c (ih h)

lemma pref_mem {p t : List Char} (h : p.isPrefixOf t = true) : ∀ c ∈ p, c ∈ t :=
  fun c hc => (List.isPrefixOf_iff_prefix.mp h).subset hc

lemma pref_self (k v : List Char) : k.isPrefixOf (k ++ v) = true :=
  List.isPrefixOf_iff_prefix.mpr (List.prefix_append k v)

/-- A pattern ending in `=` is a prefix of `w ++ v` iff it is a prefix of
`w`, provided `v` contains no `=`: an occurrence cannot straddle into `v`. -/
lemma pref_append_eq {v : List Char} (hv : ∀ c ∈ v, c ≠ '=') :
    ∀ (w p : List Char), p.getLast? = some '=' →
      p.isPrefixOf (w ++ v) = p.isPrefixOf w := by
  intro w
  induction w with
  | nil =>
    intro p hlast
    rw [List.nil_append]
    have hpne : p ≠ [] := by intro h; subst h; simp at hlast
    have h0 : p.isPrefixOf ([] : List Char) = false := by
      cases p with
      | nil => exact absurd rfl hpne
      | cons a p' => rfl
    rw [h0]
    cases hp : p.isPrefixOf v with
    | false => rfl
    | true => exact (hv '=' (pref_mem hp '=' (getLast?_mem hlast)) rfl).elim
  | cons d w' ih =>
    intro p hlast
    cases p with
    | nil => simp [List.isPrefixOf]
    | cons c p' =>
      cases p' with
      | nil => simp [List.isPrefixOf]
      | cons c2 p'' =>
        rw [List.getLast?_cons_cons] at hlast
        rw [List.cons_append]
        show (c == d && (c2 :: p'').isPrefixOf (w' ++ v)) =
          (c == d && (c2 :: p'').isPrefixOf w')
        rw [ih (c2 :: p'') hlast]

lemma containsSub_eq_false {p : List Char} (hp : '=' ∈ p) :
    ∀ {v : List Char}, (∀ c ∈ v, c ≠ '=') → containsSub v p = false := by
  intro v
  induction v with
  | nil =>
    intro _
    cases p with
    | nil => simp at hp
    | cons a p' => rfl
  | cons c v' ih =>
    intro hv
    show (p.isPrefixOf (c :: v') || containsSub v' p) = false
    cases hpp : p.isPrefixOf (c :: v') with
    | true => exact (hv '=' (pref_mem hpp '=' hp) rfl).elim
    | false =>
      rw [Bool.false_or]
      exact ih fun a ha => hv a (List.mem_cons_of_mem c ha)

/-- A pattern ending in `=` occurs in `k ++ v` iff it occurs in `k`,
provided `v` contains no `=`. -/
lemma containsSub_append_eq {v : List Char} (hv : ∀ c ∈ v, c ≠ '=')
    (p : List Char) (hlast : p.getLast? = some '=') :
    ∀ (k : List Char), containsSub (k ++ v) p = containsSub k p := by
  intro k
  induction k with
  | nil =>
    rw [List.nil_append]
    rw [containsSub_eq_false (getLast?_mem hlast) hv]
    have hpne : p ≠ [] := by intro h; subst h; simp at hlast
    cases p with
    | nil => exact absurd rfl hpne
    | cons a p' => rfl
  | cons a k' ih =>
    rw [List.cons_append]
    show (p.isPrefixOf (a :: (k' ++ v)) || containsSub (k' ++ v) p) =
      (p.isPrefixOf (a :: k') || containsSub k' p)
    rw [ih]
    have h := pref_append_eq hv (a :: k') p hlast
    rw [List.cons_append] at h
    rw [h]

/-- No `key=` marker occurs inside a different marker: the fourteen
substring tests of the text parser are mutually independent. -/
lemma keys_indep : ∀ f j : Field, containsSub (fieldKey f) (fieldKey j) = decide (f = j) := by
  decide

lemma fieldKey_last : ∀ f : Field, (fieldKey f).getLast? = some '=' := by
  decide

/-- Key markers against a key-plus-value line: only the line's own marker
matches, as long as the value text contains no `=`. -/
lemma containsSub_key_append {v : List Char} (hv : ∀ c ∈ v, c ≠ '=') (f j : Field) :
    containsSub (fieldKey f ++ v) (fieldKey j) = decide (f = j) :=
  (containsSub_append_eq hv (fieldKey j) (fieldKey_last j) (fieldKey f)).trans (keys_indep f j)

lemma findSub_of_pref {k t : List Char} (h : k.isPrefixOf t = true) :
    findSub t k = some 0 := by
  cases t with
  | nil => rw [findSub, if_pos h]
  | cons c t' => rw [findSub, if_pos h]

lemma strip_append (k v : List Char) : strip (k ++ v) k = v := by
  unfold strip
  rw [findSub_of_pref (pref_self k v)]
  show (k ++ v).drop (0 + k.length) = v
  rw [Nat.zero_add, List.drop_left]

/-! ### Text-parser line processing -/

lemma numLit_no_eq {v : List Char} (hv : ∀ c ∈ v, c ∈ numLitChars) : ∀ c ∈ v, c ≠ '=' :=
  fun c hc => (by decide : ∀ c ∈ numLitChars, c ≠ '=') c (hv c hc)

lemma despace_numLit {v : List Char} (hv : ∀ c ∈ v, c ∈ numLitChars) : despace v = v := by
  unfold despace
  rw [List.filter_eq_self]
  intro a ha
  exact (by decide : ∀ c ∈ numLitChars, (!(c == ' ' || c == '\t' || c == '\r')) = true) a (hv a ha)

lemma despace_key_append {v : List Char} (hv : ∀ c ∈ v, c ∈ numLitChars) (f : Field) :
    despace (fieldKey f ++ v) = fieldKey f ++ v := by
  unfold despace
  rw [List.filter_append]
  have h1 : despace (fieldKey f) = fieldKey f := by cases f <;> decide
  rw [despace] at h1
  rw [h1]
  have h2 := despace_numLit hv
  rw [despace] at h2
  rw [h2]

/-- Processing a line of the shape `key` + numeric text takes exactly that
key's branch: the parser's substring dispatch cannot be confused by a value
made of numeric-literal characters. -/
lemma processLine_key_append {v : List Char} (hv : ∀ c ∈ v, c ≠ '=') (f : Field)
    (o : TaggerOptions) :
    processLine o (fieldKey f ++ v) = applyTextField f o v := by
  cases f <;>
    simp [processLine, containsSub_key_append hv, strip_append]

/-- A key-plus-numeric-value line is neither blank nor a comment, so the
loop body hands it to `processLine` unchanged. -/
lemma lineStep_key {v : List Char} (hv : ∀ c ∈ v, c ∈ numLitChars) (f : Field)
    (o : TaggerOptions) :
    lineStep o (fieldKey f ++ v) = processLine o (fieldKey f ++ v) := by
  unfold lineStep
  rw [despace_key_append hv]
  cases f <;> rfl

lemma parseLines_cons_of_lineStep_error {o : TaggerOptions} {l : List Char} {e : ParseErr}
    (h : lineStep o l = .error e) (c : Nat) (rest : List (List Char)) :
    parseLines o c (l :: rest) = .error (e, c + 1) := by
  unfold lineStep at h
  unfold parseLines
  by_cases h1 : (despace l).isEmpty
  · rw [if_pos h1] at h
    exact absurd h (by simp)
  · rw [if_neg h1] at h ⊢
    by_cases h2 : (despace l).head? = some '#'
    · rw [if_pos h2] at h
      exact absurd h (by simp)
    · rw [if_neg h2] at h ⊢
      rw [h]

lemma parseLines_cons_of_lineStep_ok {o o2 : TaggerOptions} {l : List Char}
    (h : lineStep o l = .ok o2) (c : Nat) (rest : List (List Char)) :
    parseLines o c (l :: rest) = parseLines o2 (c + 1) rest := by
  unfold lineStep at h
  conv_lhs => unfold parseLines
  by_cases h1 : (despace l).isEmpty
  · rw [if_pos h1] at h ⊢
    cases h
    rfl
  · rw [if_neg h1] at h ⊢
    by_cases h2 : (despace l).head? = some '#'
    · rw [if_pos h2] at h ⊢
      cases h
      rfl
    · rw [if_neg h2] at h ⊢
      rw [h]

lemma parseLines_singleton_ok {o o2 : TaggerOptions} {l : List Char}
    (h : lineStep o l = .ok o2) (c : Nat) :
    parseLines o c [l] = .ok (o2, c + 2) := by
  rw [parseLines_cons_of_lineStep_ok h]
  rfl

lemma parseLines_ok_counter :
    ∀ (ls : List (List Char)) (o : TaggerOptions) (c : Nat) (r : TaggerOptions) (c2 : Nat),
      parseLines o c ls = .ok (r, c2) → c2 = c + ls.length + 1 := by
  intro ls
  induction ls with
  | nil =>
    intro o c r c2 h
    unfold parseLines at h
    simp at h
    obtain ⟨-, h2⟩ := h
    simp
    omega
  | cons l ls ih =>
    intro o c r c2 h
    unfold parseLines at h
    by_cases h1 : (despace l).isEmpty
    · rw [if_pos h1] at h
      have := ih o (c + 1) r c2 h
      simp [List.length_cons]
      omega
    · rw [if_neg h1] at h
      by_cases h2 : (despace l).head? = some '#'
      · rw [if_pos h2] at h
        have := ih o (c + 1) r c2 h
        simp [List.length_cons]
        omega
      · rw [if_neg h2] at h
        cases hp : processLine o (despace l) with
        | ok o3 =>
          rw [hp] at h
          have := ih o3 (c + 1) r c2 h
          simp [List.length_cons]
          omega
        | error e =>
          rw [hp] at h
          exact absurd h (by simp)

lemma parseLines_error_after :
    ∀ (valid : List (List Char)) (o o1 : TaggerOptions) (c : Nat),
      linesOk o valid = some o1 →
      ∀ (bad : List Char) (e : ParseErr), lineStep o1 bad = .error e →
      ∀ (rest : List (List Char)),
        parseLines o c (valid ++ bad :: rest) = .error (e, c + valid.length + 1) := by
  intro valid
  induction valid with
  | nil =>
    intro o o1 c hok bad e hbad rest
    unfold linesOk at hok
    cases hok
    rw [List.nil_append]
    rw [parseLines_cons_of_lineStep_error hbad]
    simp
  | cons lv valid' ih =>
    intro o o1 c hok bad e hbad rest
    unfold linesOk at hok
    cases hs : lineStep o lv with
    | ok o2 =>
      rw [hs] at hok
      rw [List.cons_append]
      rw [parseLines_cons_of_lineStep_ok hs]
      rw [ih o2 o1 (c + 1) hok bad e hbad rest]
      simp [List.length_cons]
      omega
    | error e2 =>
      rw [hs] at hok
      exact absurd hok (by simp)

/-! ### Field-branch behavior on negative and non-negative values -/

lemma applyTextField_uint_neg {v : List Char} (hneg : atoiChars v < 0)
    (o : TaggerOptions) (f : Field)
    (hf : f = Field.suffix_length ∨ f = Field.degree ∨ f = Field.max_train_passes ∨
          f = Field.max_lemmatizer_passes ∨ f = Field.max_useless_passes ∨
          f = Field.use_label_dictionary) :
    applyTextField f o v = .error ParseErr.NumericalRangeError := by
  rcases hf with rfl | rfl | rfl | rfl | rfl | rfl <;>
    simp [applyTextField, get_uint, hneg, Except.map]

lemma applyTextField_uint_nonneg {v : List Char} (hpos : ¬ atoiChars v < 0)
    (o : TaggerOptions) (f : Field)
    (hf : f = Field.suffix_length ∨ f = Field.degree ∨ f = Field.max_train_passes ∨
          f = Field.max_lemmatizer_passes ∨ f = Field.max_useless_passes ∨
          f = Field.use_label_dictionary) :
    ∃ o2, applyTextField f o v = .ok o2 := by
  rcases hf with rfl | rfl | rfl | rfl | rfl | rfl <;>
    simp [applyTextField, get_uint, hpos, Except.map]

lemma applyTextField_float_neg {v : List Char} (hneg : atofChars v < 0)
    (o : TaggerOptions) (f : Field)
    (hf : f = Field.guess_mass ∨ f = Field.beam_mass ∨ f = Field.delta ∨ f = Field.sigma) :
    applyTextField f o v = .error ParseErr.NumericalRangeError := by
  rcases hf with rfl | rfl | rfl | rfl <;>
    simp [applyTextField, get_float, hneg, Except.map]

lemma applyTextField_float_nonneg {v : List Char} (hpos : ¬ atofChars v < 0)
    (o : TaggerOptions) (f : Field)
    (hf : f = Field.guess_mass ∨ f = Field.beam_mass ∨ f = Field.delta ∨ f = Field.sigma) :
    ∃ o2, applyTextField f o v = .ok o2 := by
  rcases hf with rfl | rfl | rfl | rfl <;>
    simp [applyTextField, get_float, hpos, Except.map]

/-! ### Binary32 rounding and cast round-trips -/

lemma round24_of_le {n : Nat} (h : n ≤ 2 ^ 24) : round24 n = n := by
  unfold round24
  rw [if_pos h]

lemma f32Nat_of_le {n : Nat} (h : n ≤ 2 ^ 24) : f32Nat n = (n : ℚ) := by
  unfold f32Nat
  rw [round24_of_le h]

lemma qToUInt_natCast (n : Nat) : qToUInt (n : ℚ) = n := by
  unfold qToUInt
  rw [Int.floor_natCast]
  exact Int.toNat_natCast n

lemma qToInt_natCast (n : Nat) : qToInt (n : ℚ) = (n : Int) := by
  unfold qToInt
  rw [if_neg (not_lt.mpr (by positivity))]
  exact Int.floor_natCast n

lemma qToInt_f32Int {i : Int} (h : i.natAbs ≤ 2 ^ 24) : qToInt (f32Int i) = i := by
  unfold f32Int
  by_cases hi : i < 0
  · rw [if_pos hi]
    rw [round24_of_le h]
    have hpos : (0 : ℚ) < (i.natAbs : ℚ) := by
      have : 0 < i.natAbs := by omega
      exact_mod_cast this
    unfold qToInt
    rw [if_pos (by linarith)]
    rw [neg_neg, Int.floor_natCast]
    omega
  · rw [if_neg hi]
    have ht : i.toNat ≤ 2 ^ 24 := by omega
    rw [round24_of_le ht]
    rw [qToInt_natCast]
    omega

lemma estQ_round (e : Estimator) : qToEstimator (estQ e) = e := by
  cases e <;> rfl

lemma infQ_round (e : Inference) : qToInference (infQ e) = e := by
  cases e <;> rfl

lemma regQ_round (e : Regularization) : qToRegularization (regQ e) = e := by
  cases e <;> rfl

lemma ulb_round (b : Bool) : (qToUInt (if b then 1 else 0) != 0) = b := by
  cases b <;> rfl

lemma float_eq_self (q : ℚ) : float_eq q q = true := by
  simp [float_eq]

/-! ### Binary load: assignment loop -/

lemma assign_unknown {n : String} (h : isKnown n = false) (o : TaggerOptions) (w : ℚ) :
    assign o (n, w) = (o, [unknownMsg n]) := by
  simp [isKnown, storeNames] at h
  obtain ⟨h1, h2, h3, h4, h5, h6, h7, h8, h9, h10, h11, h12, h13, h14⟩ := h
  simp [assign, h1, h2, h3, h4, h5, h6, h7, h8, h9, h10, h11, h12, h13, h14]

lemma assign_known_msgs {n : String} (h : isKnown n = true) (o : TaggerOptions) (w : ℚ) :
    (assign o (n, w)).2 = [] := by
  simp [isKnown, storeNames] at h
  rcases h with rfl | rfl | rfl | rfl | rfl | rfl | rfl | rfl | rfl | rfl | rfl | rfl | rfl | rfl <;>
    simp [assign]

/-- The assignment loop splits: its diagnostics are exactly one message per
unknown name, in order, and its record is the one obtained from the known
pairs alone. -/
lemma applyPairs_split :
    ∀ (ps : List (String × ℚ)) (o : TaggerOptions),
      (applyPairs o ps).2 =
          (ps.filter fun p => !isKnown p.1).map (fun p => unknownMsg p.1)
      ∧ (applyPairs o ps).1 = (applyPairs o (ps.filter fun p => isKnown p.1)).1 := by
  intro ps
  induction ps with
  | nil => intro o; exact ⟨rfl, rfl⟩
  | cons x ps ih =>
    intro o
    cases hk : isKnown x.1 with
    | true =>
      constructor
      · show (assign o x).2 ++ (applyPairs (assign o x).1 ps).2 = _
        rw [assign_known_msgs hk]
        rw [List.nil_append]
        rw [(ih (assign o x).1).1]
        simp [List.filter_cons, hk]
      · show (applyPairs (assign o x).1 ps).1 = _
        rw [(ih (assign o x).1).2]
        simp only [List.filter_cons, hk]
        rfl
    | false =>
      have ha : assign o x = (o, [unknownMsg x.1]) := assign_unknown hk o x.2
      constructor
      · show (assign o x).2 ++ (applyPairs (assign o x).1 ps).2 = _
        rw [ha]
        rw [(ih o).1]
        simp [List.filter_cons, hk]
      · show (applyPairs (assign o x).1 ps).1 = _
        rw [ha]
        rw [(ih o).2]
        simp [List.filter_cons, hk]

lemma applyPairs_record_append (q : List (String × ℚ)) :
    ∀ (p : List (String × ℚ)) (o : TaggerOptions),
      (applyPairs o (p ++ q)).1 = (applyPairs (applyPairs o p).1 q).1 := by
  intro p
  induction p with
  | nil => intro o; rfl
  | cons x p ih =>
    intro o
    rw [List.cons_append]
    show (applyPairs (assign o x).1 (p ++ q)).1 = _
    rw [ih (assign o x).1]
    rfl

/-- Assigning a different field name (or an unknown one) leaves a field's
observed value unchanged. -/
lemma fieldQ_assign_other {m : String} {f : Field} (hm : m ≠ fieldName f)
    (o : TaggerOptions) (w : ℚ) : fieldQ (assign o (m, w)).1 f = fieldQ o f := by
  cases hk : isKnown m with
  | false => rw [assign_unknown hk]
  | true =>
    simp [isKnown, storeNames] at hk
    rcases hk with rfl | rfl | rfl | rfl | rfl | rfl | rfl | rfl | rfl | rfl | rfl | rfl | rfl | rfl <;>
      (cases f <;> first | rfl | exact absurd rfl hm)

/-- The value a known-field assignment leaves behind does not depend on the
record it was applied to. -/
lemma fieldQ_assign_last (f : Field) (o o' : TaggerOptions) (v : ℚ) :
    fieldQ (assign o (fieldName f, v)).1 f = fieldQ (assign o' (fieldName f, v)).1 f := by
  cases f <;> rfl

lemma fieldQ_applyPairs_not_mem {f : Field} :
    ∀ (ps : List (String × ℚ)) (o : TaggerOptions),
      fieldName f ∉ ps.map Prod.fst → fieldQ (applyPairs o ps).1 f = fieldQ o f := by
  intro ps
  induction ps with
  | nil => intro o _; rfl
  | cons x ps ih =>
    intro o h
    rw [List.map_cons, List.mem_cons] at h
    push_neg at h
    show fieldQ (applyPairs (assign o x).1 ps).1 f = fieldQ o f
    rw [ih (assign o x).1 h.2]
    exact fieldQ_assign_other (fun hx => h.1 hx.symm) o x.2

/-! ### Binary store/load round trip -/

/-- Unfolding `load` of `store` output: every field is the decode of its
encode, field by field. -/
lemma load_store (r0 o : TaggerOptions) :
    (load r0 false (store o).1 (store o).2).1 =
      { estimator := qToEstimator (estQ o.estimator),
        inference := qToInference (infQ o.inference),
        suffix_length := qToUInt (f32Nat o.suffix_length),
        degree := qToUInt (f32Nat o.degree),
        max_train_passes := qToUInt (f32Nat o.max_train_passes),
        max_lemmatizer_passes := qToUInt (f32Nat o.max_lemmatizer_passes),
        max_useless_passes := qToUInt (f32Nat o.max_useless_passes),
        guess_mass := o.guess_mass,
        beam := qToInt (f32Int o.beam),
        beam_mass := o.beam_mass,
        regularization := qToRegularization (regQ o.regularization),
        delta := o.delta,
        sigma := o.sigma,
        use_label_dictionary := qToUInt (if o.use_label_dictionary then 1 else 0) != 0 } := by
  rfl

/-! ### Claims -/

/-- C1, counterexample.  The claim says a text line setting `delta` (or
`beam_mass`, `sigma`) to a negative literal succeeds and stores the value.
It does not: `get_float` raises `NumericalRangeError` on any negative
value, so `delta=-5` aborts the parse with that error after one line. -/
theorem text_delta_negative_raises_cx :
    parseLines defaultTaggerOptions 0 ["delta=-5".data] =
      .error (ParseErr.NumericalRangeError, 1) := by
  with_unfolding_all rfl

/-- C1, amended.  For every text config line that sets one of the
sentinel-bearing float fields `beam_mass`, `delta` or `sigma` to a negative
numeric literal, the text parser raises `NumericalRangeError` (the negative
sentinels exist only as compiled-in defaults; `get_float` rejects negative
text input for these fields exactly as for `guess_mass`). -/
theorem sentinel_float_fields_reject_negative (f : Field)
    (hf : f = Field.beam_mass ∨ f = Field.delta ∨ f = Field.sigma)
    (v : List Char) (hv : ∀ c ∈ v, c ∈ numLitChars) (hneg : atofChars v < 0)
    (o : TaggerOptions) (c : Nat) :
    parseLines o c [fieldKey f ++ v] = .error (ParseErr.NumericalRangeError, c + 1) := by
  have herr : lineStep o (fieldKey f ++ v) = .error ParseErr.NumericalRangeError := by
    rw [lineStep_key hv, processLine_key_append (numLit_no_eq hv)]
    exact applyTextField_float_neg hneg o f (by rcases hf with rfl | rfl | rfl <;> simp)
  exact parseLines_cons_of_lineStep_error herr c []

/-- C1, witness for the amended theorem, at `beam_mass=-2.5`. -/
theorem sentinel_float_fields_reject_negative_witness :
    parseLines defaultTaggerOptions 0 [fieldKey Field.beam_mass ++ "-2.5".data] =
      .error (ParseErr.NumericalRangeError, 1) :=
  sentinel_float_fields_reject_negative Field.beam_mass (Or.inl rfl) "-2.5".data
    (by decide) (of_decide_eq_true (by with_unfolding_all rfl)) defaultTaggerOptions 0

/-- C2, counterexample.  The claim says the equality predicate is true iff
every field — including `max_useless_passes` — agrees.  But the C++
comparison chain never compares `max_useless_passes`: two records that
differ only there still compare equal. -/
theorem optionsEq_ignores_max_useless_cx :
    optionsEq defaultTaggerOptions { defaultTaggerOptions with max_useless_passes := 4 } = true
    ∧ defaultTaggerOptions.max_useless_passes ≠
        ({ defaultTaggerOptions with max_useless_passes := 4 } : TaggerOptions).max_useless_passes :=
  of_decide_eq_true (by with_unfolding_all rfl)

/-- C2, amended.  The equality predicate returns true iff every field
*except `max_useless_passes`* agrees — integer, enum and boolean fields
exactly, the float fields `guess_mass`, `beam_mass`, `delta`, `sigma`
within absolute difference 0.001. -/
theorem optionsEq_iff_fields_agree (a b : TaggerOptions) :
    optionsEq a b = true ↔ specFieldEqNoUseless a b := by
  unfold optionsEq specFieldEqNoUseless float_eq
  simp [and_assoc]

set_option maxRecDepth 8000 in
/-- C3, counterexample.  The claim says `load` of `store` output restores
any record up to the §4.3 equality.  It fails for records whose integer
fields exceed binary32 precision: with `suffix_length = 2^25 + 1`, `store`
pushes the field through `float` (nearest value `2^25`), `load` reads back
`2^25 = 33554432 ≠ 33554433`, and the equality — exact on integer fields —
rejects the pair. -/
theorem roundtrip_fails_big_suffix_cx :
    optionsEq (load defaultTaggerOptions false (store bigSuffixRec).1 (store bigSuffixRec).2).1
      bigSuffixRec = false := by
  with_unfolding_all rfl

/-- C3, amended.  For every record whose integer-typed fields all have
magnitude at most `2^24` (so their `float` images are exact), deserializing
the serialized form into any fresh record yields a record equal to the
original under the code's equality predicate. -/
theorem store_load_roundtrip (o r0 : TaggerOptions)
    (h1 : o.suffix_length ≤ 2 ^ 24) (h2 : o.degree ≤ 2 ^ 24)
    (h3 : o.max_train_passes ≤ 2 ^ 24) (h4 : o.max_lemmatizer_passes ≤ 2 ^ 24)
    (h5 : o.max_useless_passes ≤ 2 ^ 24) (h6 : o.beam.natAbs ≤ 2 ^ 24) :
    optionsEq (load r0 false (store o).1 (store o).2).1 o = true := by
  rw [load_store]
  simp [optionsEq, f32Nat_of_le h1, f32Nat_of_le h2, f32Nat_of_le h3, f32Nat_of_le h4,
        f32Nat_of_le h5, qToUInt_natCast, qToInt_f32Int h6, estQ_round, infQ_round,
        regQ_round, ulb_round, float_eq_self]

/-- C3, witness for the amended theorem: the defaults round-trip. -/
theorem store_load_roundtrip_witness :
    optionsEq (load defaultTaggerOptions false (store defaultTaggerOptions).1
        (store defaultTaggerOptions).2).1 defaultTaggerOptions = true :=
  store_load_roundtrip defaultTaggerOptions defaultTaggerOptions (by decide) (by decide)
    (by decide) (by decide) (by decide) (by decide)

/-- C4.  Parsing an empty text input terminates successfully (after the one
end-of-stream read) and the resulting record carries exactly the
compiled-in defaults: `AVG_PERC`, `MAP`, 10, 2, 50, 50, 3, 0.99 (within
tolerance), `beam = -1`, `beam_mass = -1`, `NONE`, `delta = -1`,
`sigma = -1`, `use_label_dictionary = true`. -/
theorem parse_empty_yields_defaults :
    parseLines defaultTaggerOptions 0 [] = .ok (defaultTaggerOptions, 1)
    ∧ defaultTaggerOptions.estimator = Estimator.AVG_PERC
    ∧ defaultTaggerOptions.inference = Inference.MAP
    ∧ defaultTaggerOptions.suffix_length = 10
    ∧ defaultTaggerOptions.degree = 2
    ∧ defaultTaggerOptions.max_train_passes = 50
    ∧ defaultTaggerOptions.max_lemmatizer_passes = 50
    ∧ defaultTaggerOptions.max_useless_passes = 3
    ∧ float_eq defaultTaggerOptions.guess_mass (99/100) = true
    ∧ defaultTaggerOptions.beam = -1
    ∧ defaultTaggerOptions.beam_mass = -1
    ∧ defaultTaggerOptions.regularization = Regularization.NONE
    ∧ defaultTaggerOptions.delta = -1
    ∧ defaultTaggerOptions.sigma = -1
    ∧ defaultTaggerOptions.use_label_dictionary = true :=
  ⟨by with_unfolding_all rfl, of_decide_eq_true (by with_unfolding_all rfl)⟩

/-- C5.  During binary load: a faulted stream raises `ReadFailed`;
otherwise mismatched sequence lengths raise `BadBinary`; otherwise no
structural error is raised. -/
theorem load_structural_errors (o : TaggerOptions) (sf : Bool) (ns : List String)
    (vs : List ℚ) :
    (sf = true → (load o sf ns vs).2.1 = some LoadErr.ReadFailed)
    ∧ (sf = false → ns.length ≠ vs.length → (load o sf ns vs).2.1 = some LoadErr.BadBinary)
    ∧ (sf = false → ns.length = vs.length → (load o sf ns vs).2.1 = none) := by
  refine ⟨fun h => ?_, fun h hl => ?_, fun h hl => ?_⟩
  · subst h; rfl
  · subst h; simp [load, hl]
  · subst h; simp [load, hl]

/-- C5, witness: a one-name, zero-value input raises `BadBinary`. -/
theorem load_structural_errors_witness :
    (load defaultTaggerOptions false ["x"] []).2.1 = some LoadErr.BadBinary :=
  (load_structural_errors defaultTaggerOptions false ["x"] []).2.1 rfl (by decide)

/-- C6.  A well-formed binary input (equal lengths, no stream fault)
containing unknown field names loads without any error; one diagnostic is
emitted, in order, for each unknown (name, value) pair; and the resulting
record is exactly the one obtained by assigning the known pairs. -/
theorem load_unknown_fields_tolerated (o : TaggerOptions) (ns : List String) (vs : List ℚ)
    (hlen : ns.length = vs.length) (hunk : ∃ n ∈ ns, isKnown n = false) :
    (load o false ns vs).2.1 = none
    ∧ (load o false ns vs).2.2 =
        ((ns.zip vs).filter fun p => !isKnown p.1).map (fun p => unknownMsg p.1)
    ∧ (load o false ns vs).1 = (applyPairs o ((ns.zip vs).filter fun p => isKnown p.1)).1 := by
  refine ⟨?_, ?_, ?_⟩
  · simp [load, hlen]
  · have h := (applyPairs_split (ns.zip vs) o).1
    simp [load, hlen]
    exact h
  · have h := (applyPairs_split (ns.zip vs) o).2
    simp [load, hlen]
    exact h

/-- C6, witness: loading `("estimator", 1), ("bogus", 7)` succeeds, warns
once about `bogus`, and sets the known field. -/
theorem load_unknown_fields_tolerated_witness :
    (load defaultTaggerOptions false ["estimator", "bogus"] [1, 7]).2.1 = none
    ∧ (load defaultTaggerOptions false ["estimator", "bogus"] [1, 7]).2.2 =
        (([("estimator", (1 : ℚ)), ("bogus", 7)].filter fun p => !isKnown p.1).map
          fun p => unknownMsg p.1)
    ∧ (load defaultTaggerOptions false ["estimator", "bogus"] [1, 7]).1 =
        (applyPairs defaultTaggerOptions
          ([("estimator", (1 : ℚ)), ("bogus", 7)].filter fun p => isKnown p.1)).1 :=
  load_unknown_fields_tolerated defaultTaggerOptions ["estimator", "bogus"] [1, 7] rfl
    ⟨"bogus", by decide, by decide⟩

/-- C7, counterexample.  The claim says the counter is incremented exactly
once per line consumed.  But the loop also increments it on the final
end-of-stream `getline` probe (with only `eofbit` set, `while (in)` is
still true): parsing an empty input consumes zero lines yet leaves the
counter at 1, not 0. -/
theorem parse_counter_empty_cx :
    parseLines defaultTaggerOptions 0 [] = .ok (defaultTaggerOptions, 1) ∧ (1 : Nat) ≠ 0 :=
  ⟨by with_unfolding_all rfl, by decide⟩

/-- C7, amended.  On a syntax failure after k cleanly processed lines the
counter has been incremented exactly k + 1 times (once per consumed line,
the failing line included); on successful termination it has been
incremented once per line plus once more for the final end-of-stream read
attempt. -/
theorem parse_counter_behavior (o : TaggerOptions) (c : Nat) (valid : List (List Char))
    (o1 : TaggerOptions) (bad : List Char) (e : ParseErr) (rest lines : List (List Char))
    (r : TaggerOptions) (c2 : Nat) :
    (linesOk o valid = some o1 → lineStep o1 bad = .error e →
      parseLines o c (valid ++ bad :: rest) = .error (e, c + valid.length + 1))
    ∧ (parseLines o c lines = .ok (r, c2) → c2 = c + lines.length + 1) := by
  constructor
  · intro h1 h2
    exact parseLines_error_after valid o o1 c h1 bad e h2 rest
  · intro h
    exact parseLines_ok_counter lines o c r c2 h

/-- C7, witness for the amended theorem, at the repository's own test
input: five valid lines, then `max_useless_passeSSS=5` — `SyntaxError` with
the counter at 6. -/
theorem parse_counter_behavior_witness :
    parseLines defaultTaggerOptions 0
        (["sigma=1".data, "delta=2".data, "regularization=L1".data, "beam=3".data,
          "guess_mass=0.9999".data] ++ "max_useless_passeSSS=5".data ::
          ["max_train_passes=6".data]) =
      .error (ParseErr.SyntaxError, 6)
    ∧ (parseLines defaultTaggerOptions 0 ["beam=3".data] = .ok
        ({ defaultTaggerOptions with beam := 3 }, 2) → (2 : Nat) = 0 + 1 + 1) :=
  ⟨(parse_counter_behavior defaultTaggerOptions 0
      ["sigma=1".data, "delta=2".data, "regularization=L1".data, "beam=3".data,
       "guess_mass=0.9999".data]
      { defaultTaggerOptions with
          sigma := 1, delta := 2, regularization := Regularization.L1, beam := 3,
          guess_mass := 9999/10000 }
      "max_useless_passeSSS=5".data ParseErr.SyntaxError ["max_train_passes=6".data]
      ["beam=3".data] { defaultTaggerOptions with beam := 3 } 2).1
      (by with_unfolding_all rfl) (by with_unfolding_all rfl),
   (parse_counter_behavior defaultTaggerOptions 0
      ["sigma=1".data, "delta=2".data, "regularization=L1".data, "beam=3".data,
       "guess_mass=0.9999".data]
      { defaultTaggerOptions with
          sigma := 1, delta := 2, regularization := Regularization.L1, beam := 3,
          guess_mass := 9999/10000 }
      "max_useless_passeSSS=5".data ParseErr.SyntaxError ["max_train_passes=6".data]
      ["beam=3".data] { defaultTaggerOptions with beam := 3 } 2).2⟩

/-- C8.  For each non-negativity-checked field (the six `get_uint` fields
and `guess_mass`): a line assigning it a negative numeric literal makes the
parser raise `NumericalRangeError` (counter at the failing line), and a
non-negative literal never does — the line is accepted. -/
theorem nonneg_fields_negative_literal (f : Field)
    (hf : f = Field.suffix_length ∨ f = Field.degree ∨ f = Field.max_train_passes ∨
          f = Field.max_lemmatizer_passes ∨ f = Field.max_useless_passes ∨
          f = Field.use_label_dictionary ∨ f = Field.guess_mass)
    (v : List Char) (hv : ∀ c ∈ v, c ∈ numLitChars) (o : TaggerOptions) (c : Nat) :
    (textNumVal f v < 0 →
        parseLines o c [fieldKey f ++ v] = .error (ParseErr.NumericalRangeError, c + 1))
    ∧ (0 ≤ textNumVal f v → ∃ o2, parseLines o c [fieldKey f ++ v] = .ok (o2, c + 2)) := by
  constructor
  · intro hneg
    have herr : lineStep o (fieldKey f ++ v) = .error ParseErr.NumericalRangeError := by
      rw [lineStep_key hv, processLine_key_append (numLit_no_eq hv)]
      rcases hf with rfl | rfl | rfl | rfl | rfl | rfl | rfl <;>
        first
        | exact applyTextField_uint_neg (by simpa [textNumVal] using hneg) o _ (by simp)
        | exact applyTextField_float_neg (by simpa [textNumVal] using hneg) o _ (by simp)
    exact parseLines_cons_of_lineStep_error herr c []
  · intro hpos
    have hok : ∃ o2, lineStep o (fieldKey f ++ v) = .ok o2 := by
      rw [lineStep_key hv, processLine_key_append (numLit_no_eq hv)]
      rcases hf with rfl | rfl | rfl | rfl | rfl | rfl | rfl <;>
        first
        | exact applyTextField_uint_nonneg
            (not_lt.mpr (by simpa [textNumVal] using hpos)) o _ (by simp)
        | exact applyTextField_float_nonneg
            (not_lt.mpr (by simpa [textNumVal] using hpos)) o _ (by simp)
    obtain ⟨o2, h2⟩ := hok
    exact ⟨o2, parseLines_singleton_ok h2 c⟩

/-- C8, witness: `suffix_length=-1` raises `NumericalRangeError` after one
line. -/
theorem nonneg_fields_negative_literal_witness :
    parseLines defaultTaggerOptions 0 [fieldKey Field.suffix_length ++ "-1".data] =
      .error (ParseErr.NumericalRangeError, 1) :=
  (nonneg_fields_negative_literal Field.suffix_length (Or.inl rfl) "-1".data (by decide)
    defaultTaggerOptions 0).1 (of_decide_eq_true (by with_unfolding_all rfl))

/-- C9.  Binary load is atomic on structural failure: whenever it reports
`ReadFailed` or `BadBinary`, the record is unchanged — both checks precede
the first field assignment. -/
theorem load_error_atomic (o : TaggerOptions) (sf : Bool) (ns : List String) (vs : List ℚ)
    (h : ∃ e, (load o sf ns vs).2.1 = some e) : (load o sf ns vs).1 = o := by
  obtain ⟨e, he⟩ := h
  cases sf with
  | true => rfl
  | false =>
    by_cases h2 : ns.length = vs.length
    · exfalso
      simp [load, h2] at he
    · simp [load, h2]

/-- C9, witness: a faulted-stream load leaves a (non-default) record
untouched. -/
theorem load_error_atomic_witness :
    (load bigSuffixRec true ["estimator"] []).1 = bigSuffixRec :=
  load_error_atomic bigSuffixRec true ["estimator"] [] ⟨LoadErr.ReadFailed, rfl⟩

/-- C10.  The binary (name, value) pairs are applied in sequence order
(the loop is a left-to-right state thread), and when a known field name
occurs several times the field's final observed value is the one its last
occurrence leaves — later pairs with other names do not disturb it. -/
theorem load_last_occurrence_wins (o : TaggerOptions) (pre suf p q : List (String × ℚ))
    (f : Field) (v : ℚ) (hsuf : fieldName f ∉ suf.map Prod.fst) :
    ((applyPairs o (p ++ q)).1 = (applyPairs (applyPairs o p).1 q).1)
    ∧ fieldQ (applyPairs o (pre ++ (fieldName f, v) :: suf)).1 f =
        fieldQ (assign o (fieldName f, v)).1 f := by
  constructor
  · exact applyPairs_record_append q p o
  · rw [applyPairs_record_append ((fieldName f, v) :: suf) pre o]
    show fieldQ (applyPairs (assign (applyPairs o pre).1 (fieldName f, v)).1 suf).1 f = _
    rw [fieldQ_applyPairs_not_mem suf _ hsuf]
    exact fieldQ_assign_last f _ o v

/-- C10, witness: `delta` set at 5, overwritten by 9, then `sigma` set —
the final `delta` is 9, exactly what assigning `(delta, 9)` alone leaves. -/
theorem load_last_occurrence_wins_witness :
    ((applyPairs defaultTaggerOptions ([("beam", (3 : ℚ))] ++ [("bogus", (1 : ℚ))])).1 =
      (applyPairs (applyPairs defaultTaggerOptions [("beam", (3 : ℚ))]).1
        [("bogus", (1 : ℚ))]).1)
    ∧ fieldQ (applyPairs defaultTaggerOptions
        ([("delta", (5 : ℚ))] ++ (fieldName Field.delta, (9 : ℚ)) :: [("sigma", (2 : ℚ))])).1
        Field.delta =
      fieldQ (assign defaultTaggerOptions (fieldName Field.delta, (9 : ℚ))).1 Field.delta :=
  load_last_occurrence_wins defaultTaggerOptions [("delta", (5 : ℚ))] [("sigma", (2 : ℚ))]
    [("beam", (3 : ℚ))] [("bogus", (1 : ℚ))] Field.delta 9 (by decide)

end FinnPos
